import Mathlib

/-!
Verification development for the x402Apes payment-verification-and-mint
orchestrator (`src/api/402.js`, the variant handler in `src/unnamed/part_002`,
and the token contract in `src/unnamed/part_000`).

Modelling conventions, fixed once for the whole file:

* Addresses are modelled by their 160-bit numeric value (`Address := Nat`).
  The source normalises string representations with `toLowerCase()` and
  re-checksums with `ethers.getAddress`; both are the identity on the
  underlying numeric value, so address comparison in the model is plain
  equality.
* Transaction hashes are the strings the HTTP caller supplies; the
  JavaScript `Set` used as the idempotency ledger compares them with exact
  string equality, so the model keeps them as `String`.
* `uint256` values and USDC amounts become `Nat`.  The JavaScript side uses
  `BigInt` (arbitrary precision), so `Nat` is exact there; for the Solidity
  contract the one place checked `uint256` addition can diverge from `Nat`
  addition is noted at `mintAfterPayment`.
* `ethers.Interface.parseLog` either yields a decoded `Transfer` event or
  fails (throws, returns null, or decodes a different event); the model
  collapses this to `Option TransferEvent` on each raw log.
* Every remote call (`getTransactionReceipt`, `getLogs`, `owner()`, the mint
  broadcast, `tx.wait()`) can throw; a request's environment (`Env402`,
  `Env2`) records the outcome each call would produce, and the handler
  embedding threads an explicit trace (`List Call`) of the remote calls it
  actually performed.
-/

namespace X402

abbrev Address := Nat
abbrev Amount := Nat

/-- A decoded ERC-20 `Transfer(address from, address to, uint256 value)`
event, as produced by `iface.parseLog`. -/
structure TransferEvent where
  fromAddr : Address
  toAddr : Address
  value : Amount
deriving DecidableEq, Repr

/-- A raw receipt log entry: the emitting contract address and the result of
attempting to decode it against the one-event ERC-20 ABI. `parsed = none`
models a log whose decoding throws, returns null, or is not a `Transfer`. -/
structure Log where
  address : Address
  parsed : Option TransferEvent
deriving DecidableEq, Repr

/-- A transaction receipt as consumed by `verifyUsdcPayment`:
`receipt.status` (1 = success) and `receipt.logs` in on-ledger order. -/
structure Receipt where
  status : Nat
  logs : List Log
deriving DecidableEq, Repr

/-- The process-wide configuration read from the environment at startup:
`USDC_ADDRESS`, `TREASURY_ADDRESS`, `PRICE = BigInt(X402_PRICE_USDC)`, and
the resource identifier `X402_RESOURCE || 'mint:x402apes:1'`. -/
structure Config where
  usdcAddress : Address
  treasuryAddress : Address
  price : Amount
  resource : String
deriving DecidableEq, Repr

/-- The structured failure modes of `verifyUsdcPayment`; each corresponds to
one `throw new Error(...)` site. `insufficientAmount` carries the summed
paid value and the configured price that appear in the thrown message. -/
inductive VerifyError
  | transactionNotFound
  | transactionFailed
  | noQualifyingTransfer
  | insufficientAmount (paid required : Amount)
deriving DecidableEq, Repr

/-- One iteration of the `for (const log of receipt.logs)` loop of
`verifyUsdcPayment` (src/api/402.js lines 103-112): skip logs not emitted by
the configured asset, skip logs that do not decode to a `Transfer`, skip
transfers whose destination is not the treasury; otherwise accumulate the
value (`paid += value`) and record the source of the first qualifying event
(`if (!payer) payer = parsed.args.from`).  The accumulator is the pair
`(payer, paid)`. -/
def verifyStep (cfg : Config) (acc : Option Address × Amount) (log : Log) :
    Option Address × Amount :=
  if log.address ≠ cfg.usdcAddress then acc
  else
    match log.parsed with
    | none => acc
    | some ev =>
      if ev.toAddr = cfg.treasuryAddress then
        ((if acc.1.isNone then some ev.fromAddr else acc.1), acc.2 + ev.value)
      else acc

/-- `verifyUsdcPayment(txHash)` (src/api/402.js lines 91-116).  The receipt
the provider would return for the hash is passed in explicitly (`none`
models `getTransactionReceipt` returning null).  The part_002 variant
(src/unnamed/part_002 lines 44-73) computes the identical function: it only
nests the destination test inside the decode test and words the
`transactionFailed` message differently (see `verifyMessage2`). -/
def verifyUsdcPayment (cfg : Config) (receiptQ : Option Receipt) :
    Except VerifyError Address :=
  match receiptQ with
  | none => .error .transactionNotFound
  | some receipt =>
    if receipt.status ≠ 1 then .error .transactionFailed
    else
      let acc := receipt.logs.foldl (verifyStep cfg) (none, 0)
      match acc.1 with
      | none => .error .noQualifyingTransfer
      | some payer =>
        if acc.2 < cfg.price then .error (.insufficientAmount acc.2 cfg.price)
        else .ok payer

/-- Spec-side notion: the decoded `Transfer` carried by a log, provided the
log was emitted by the configured asset and its destination is the treasury
address. -/
def qualifies (cfg : Config) (log : Log) : Option TransferEvent :=
  if log.address = cfg.usdcAddress then
    log.parsed.bind fun ev =>
      if ev.toAddr = cfg.treasuryAddress then some ev else none
  else none

/-- Spec-side notion: the qualifying transfer events of a log list, in
on-ledger order. -/
def qualifyingTransfers (cfg : Config) (logs : List Log) : List TransferEvent :=
  logs.filterMap (qualifies cfg)

/-- Spec-side notion: total value of a list of transfer events. -/
def sumValues (evs : List TransferEvent) : Amount :=
  (evs.map TransferEvent.value).sum

/-- Spec-side notion: the payer attribution rule — keep an already-recorded
payer, otherwise take the source of the first qualifying event. -/
def firstPayer (p : Option Address) (qs : List TransferEvent) : Option Address :=
  match p with
  | some a => some a
  | none => qs.head?.map TransferEvent.fromAddr

/-- The thrown-error message texts of src/api/402.js's `verifyUsdcPayment`. -/
def verifyMessage402 : VerifyError → String
  | .transactionNotFound => "Transaction not found"
  | .transactionFailed => "Transaction failed"
  | .noQualifyingTransfer => "No USDC Transfer to TREASURY found in tx"
  | .insufficientAmount paid required =>
      "Insufficient amount: paid=" ++ toString paid ++ " required=" ++ toString required

/-- The thrown-error message texts of the part_002 variant's
`verifyUsdcPayment`; it differs from src/api/402.js only on the failed
transaction. -/
def verifyMessage2 : VerifyError → String
  | .transactionFailed => "Transaction failed on-chain"
  | e => verifyMessage402 e

/-- The remote calls a request can perform, in the order the handler issues
them.  `getBlockNumber`, `getLogs`, `getReceipt` are Chain Reader (read-only
ledger) calls; `ownerCall` reads the contract's recorded owner;
`mintDispatch` is the privileged mint broadcast; `txWait` waits for its
confirmation. -/
inductive Call
  | getBlockNumber
  | getLogs
  | getReceipt
  | ownerCall
  | mintDispatch
  | txWait
deriving DecidableEq, Repr

/-- The JSON bodies a POST can answer with, keeping the payload the claims
compare: `alreadyProcessed` is `(ok: true, note: 'Already processed',
txHash)`, `minted` is `(ok: true, mintedTo, nftTxHash, note)`,
`signerNotOwner` is the 402.js authority-mismatch body with its
`(onchainOwner, signer)` details, and `errorMsg` carries the `error` string
of every other error body (including caught exception messages). -/
inductive RespBody
  | alreadyProcessed (txHash : String)
  | minted (payer : Address) (nftTxHash : String)
  | signerNotOwner (onchainOwner signer : Address)
  | errorMsg (msg : String)
deriving DecidableEq, Repr

/-- What one POST request leaves behind: the processed-proof set after the
request, the HTTP status and body of the response, and the trace of remote
calls the handler performed, in order. -/
structure ReqResult where
  processed : List String
  status : Nat
  body : RespBody
  calls : List Call
deriving DecidableEq, Repr

/-- An inbound POST request: the body's `resource` and `txHash` fields
(`none` models absent or empty, i.e. falsy), and for src/api/402.js the
payer hint taken from the `x-402-payer` header or the `payer` query
parameter. -/
structure Request where
  resource : Option String
  txHash : Option String
  payerHint : Option String
deriving DecidableEq, Repr

/-- The environment one request to src/api/402.js executes against: whether
the wallet and contract handles were configured, the signer's address, and
the outcome each remote call would produce (`Except.error` models a thrown
exception carrying `err.message`).  `paymentLogs` lists the transaction
hashes of the `getLogs` result used by payment discovery; `receipt` is the
`getTransactionReceipt` result (`some none` = null receipt); `waitResult`
carries `rec.hash` on success. -/
structure Env402 where
  configured : Bool
  walletAddress : Address
  blockNumber : Except String Nat
  paymentLogs : Except String (List String)
  receipt : Except String (Option Receipt)
  ownerResult : Except String Address
  mintResult : Except String Unit
  waitResult : Except String String

/-- The environment one request to the part_002 variant executes against; it
never reads the contract owner, so there is no owner field to consult. -/
structure Env2 where
  configured : Bool
  receipt : Except String (Option Receipt)
  mintResult : Except String Unit
  waitResult : Except String String

/-- `findLatestUsdcPaymentTxHash(payer)` (src/api/402.js lines 69-89): fetch
the block height, scan the recent window for Transfer logs from the payer to
the treasury, throw if none, else return the last (most recent) log's
transaction hash.  Returns the outcome together with the Chain Reader calls
performed. -/
def findLatestUsdcPaymentTxHash (env : Env402) :
    Except String String × List Call :=
  match env.blockNumber with
  | .error e => (.error e, [.getBlockNumber])
  | .ok _ =>
    match env.paymentLogs with
    | .error e => (.error e, [.getBlockNumber, .getLogs])
    | .ok logs =>
      match logs.getLast? with
      | none => (.error "No recent USDC payment from payer to treasury",
                 [.getBlockNumber, .getLogs])
      | some h => (.ok h, [.getBlockNumber, .getLogs])

/-- src/api/402.js lines 145-171, the POST path from the point a transaction
hash is in hand: the `processedTxs.has` check, `verifyUsdcPayment`, the
fresh `nft.owner()` pre-check against the signer, the mint broadcast,
`tx.wait()`, and only then `processedTxs.add`.  Any thrown error falls to
the catch-all at lines 176-181, which answers 500 with the message.
`calls0` is the trace accumulated before this point (payment discovery). -/
def afterTxHash402 (cfg : Config) (env : Env402) (processed : List String)
    (txHash : String) (calls0 : List Call) : ReqResult :=
  if txHash ∈ processed then
    ⟨processed, 200, .alreadyProcessed txHash, calls0⟩
  else
    match env.receipt with
    | .error e => ⟨processed, 500, .errorMsg e, calls0 ++ [.getReceipt]⟩
    | .ok receiptQ =>
      match verifyUsdcPayment cfg receiptQ with
      | .error ve =>
        ⟨processed, 500, .errorMsg (verifyMessage402 ve), calls0 ++ [.getReceipt]⟩
      | .ok payer =>
        match env.ownerResult with
        | .error e =>
          ⟨processed, 500, .errorMsg e, calls0 ++ [.getReceipt, .ownerCall]⟩
        | .ok onchainOwner =>
          if onchainOwner ≠ env.walletAddress then
            ⟨processed, 400, .signerNotOwner onchainOwner env.walletAddress,
             calls0 ++ [.getReceipt, .ownerCall]⟩
          else
            match env.mintResult with
            | .error e =>
              ⟨processed, 500, .errorMsg e,
               calls0 ++ [.getReceipt, .ownerCall, .mintDispatch]⟩
            | .ok _ =>
              match env.waitResult with
              | .error e =>
                ⟨processed, 500, .errorMsg e,
                 calls0 ++ [.getReceipt, .ownerCall, .mintDispatch, .txWait]⟩
              | .ok recHash =>
                ⟨txHash :: processed, 200, .minted payer recHash,
                 calls0 ++ [.getReceipt, .ownerCall, .mintDispatch, .txWait]⟩

/-- The POST branch of src/api/402.js's handler (lines 128-171 plus the
catch-all at 176-181): misconfiguration guard, then the direct-`txHash`
path, or payment discovery from the payer hint when `txHash` is absent.
The GET and 405 branches perform no state change and are untouched by the
claims, so the embedding covers POST only. -/
def handlerPost402 (cfg : Config) (env : Env402) (processed : List String)
    (req : Request) : ReqResult :=
  if !env.configured then
    ⟨processed, 500,
     .errorMsg "Server misconfigured: missing OWNER_PRIVATE_KEY or NFT_CONTRACT_ADDRESS",
     []⟩
  else
    match req.txHash with
    | some h => afterTxHash402 cfg env processed h []
    | none =>
      match req.payerHint with
      | none => ⟨processed, 400,
                 .errorMsg "Missing txHash and payer; cannot infer payment", []⟩
      | some _ =>
        match findLatestUsdcPaymentTxHash env with
        | (.error e, cs) => ⟨processed, 500, .errorMsg e, cs⟩
        | (.ok h, cs) => afterTxHash402 cfg env processed h cs

/-- The POST branch of the part_002 variant's handler (src/unnamed/part_002
lines 118-136): misconfiguration guard (thrown, so answered 500 by the
catch), missing-field check, resource check against the configured
identifier, `processedTxs.has` check, `verifyUsdcPayment`, and the mint
broadcast issued directly — this variant performs no owner pre-check — then
`tx.wait()`, `processedTxs.add`, and the success body. -/
def handlerPost2 (cfg : Config) (env : Env2) (processed : List String)
    (req : Request) : ReqResult :=
  if !env.configured then
    ⟨processed, 500,
     .errorMsg "Server misconfigured: missing OWNER_PRIVATE_KEY or NFT_CONTRACT_ADDRESS",
     []⟩
  else
    match req.resource, req.txHash with
    | none, _ => ⟨processed, 400, .errorMsg "Missing resource or txHash", []⟩
    | some _, none => ⟨processed, 400, .errorMsg "Missing resource or txHash", []⟩
    | some r, some h =>
      if r ≠ cfg.resource then
        ⟨processed, 400, .errorMsg "Invalid resource", []⟩
      else if h ∈ processed then
        ⟨processed, 200, .alreadyProcessed h, []⟩
      else
        match env.receipt with
        | .error e => ⟨processed, 500, .errorMsg e, [.getReceipt]⟩
        | .ok receiptQ =>
          match verifyUsdcPayment cfg receiptQ with
          | .error ve =>
            ⟨processed, 500, .errorMsg (verifyMessage2 ve), [.getReceipt]⟩
          | .ok payer =>
            match env.mintResult with
            | .error e =>
              ⟨processed, 500, .errorMsg e, [.getReceipt, .mintDispatch]⟩
            | .ok _ =>
              match env.waitResult with
              | .error e =>
                ⟨processed, 500, .errorMsg e,
                 [.getReceipt, .mintDispatch, .txWait]⟩
              | .ok recHash =>
                ⟨h :: processed, 200, .minted payer recHash,
                 [.getReceipt, .mintDispatch, .txWait]⟩

/-- A whole sequence of POST requests against src/api/402.js, each with its
own environment, threading the process-lifetime processed-proof set. -/
def runRequests402 (cfg : Config) (reqs : List (Env402 × Request))
    (processed : List String) : List String :=
  reqs.foldl (fun p er => (handlerPost402 cfg er.1 p er.2).processed) processed

/-!
Concurrency model for the POST path of src/api/402.js.  The Node.js event
loop runs each request's code atomically between `await` points; a request
suspends exactly at `await verifyUsdcPayment(...)`, `await nft.owner()`,
`await nft.mintAfterPayment(...)` and `await tx.wait()`.  A task's program
counter below names the suspension the task is parked at; `stepTask` runs
one atomic segment (from one suspension point to the next).  The mint
broadcast is counted in the segment that compares the owner and issues the
call.  Shared state is the module-level `processedTxs` set plus a dispatch
counter that exists only in the model, to count `nft.mintAfterPayment`
invocations.
-/

/-- Program counter of one in-flight POST task of src/api/402.js. -/
inductive Pc
  | ready
  | verifying
  | fetchingOwner (payer : Address)
  | mintBroadcast (payer : Address)
  | waitingConfirm (payer : Address)
  | done (status : Nat) (body : RespBody)
deriving DecidableEq, Repr

/-- One in-flight POST task: the transaction hash it carries and its
program counter. -/
structure TaskState where
  txHash : String
  pc : Pc
deriving DecidableEq, Repr

/-- State shared by all tasks of the process: the `processedTxs` set and the
number of mint dispatches issued so far. -/
structure Shared where
  processed : List String
  dispatches : Nat
deriving DecidableEq, Repr

/-- Run one atomic segment of a task (src/api/402.js lines 145-171):
`ready` runs the `processedTxs.has` check and starts verification;
`verifying` resumes with the receipt and computes `verifyUsdcPayment`;
`fetchingOwner` resumes with the owner, compares it to the signer and — on
match — issues the mint broadcast (counted here); `mintBroadcast` resumes
when the broadcast returns; `waitingConfirm` resumes after confirmation,
adds the hash to `processedTxs` and answers. -/
def stepTask (cfg : Config) (env : Env402) (sh : Shared) (t : TaskState) :
    Shared × TaskState :=
  match t.pc with
  | .ready =>
    if t.txHash ∈ sh.processed then
      (sh, { t with pc := .done 200 (.alreadyProcessed t.txHash) })
    else (sh, { t with pc := .verifying })
  | .verifying =>
    match env.receipt with
    | .error e => (sh, { t with pc := .done 500 (.errorMsg e) })
    | .ok receiptQ =>
      match verifyUsdcPayment cfg receiptQ with
      | .error ve =>
        (sh, { t with pc := .done 500 (.errorMsg (verifyMessage402 ve)) })
      | .ok payer => (sh, { t with pc := .fetchingOwner payer })
  | .fetchingOwner payer =>
    match env.ownerResult with
    | .error e => (sh, { t with pc := .done 500 (.errorMsg e) })
    | .ok onchainOwner =>
      if onchainOwner ≠ env.walletAddress then
        (sh, { t with
               pc := .done 400 (.signerNotOwner onchainOwner env.walletAddress) })
      else
        ({ sh with dispatches := sh.dispatches + 1 },
         { t with pc := .mintBroadcast payer })
  | .mintBroadcast payer =>
    match env.mintResult with
    | .error e => (sh, { t with pc := .done 500 (.errorMsg e) })
    | .ok _ => (sh, { t with pc := .waitingConfirm payer })
  | .waitingConfirm payer =>
    match env.waitResult with
    | .error e => (sh, { t with pc := .done 500 (.errorMsg e) })
    | .ok recHash =>
      ({ sh with processed := t.txHash :: sh.processed },
       { t with pc := .done 200 (.minted payer recHash) })
  | .done _ _ => (sh, t)

/-- Interleave two tasks under a schedule: `true` steps the first task,
`false` the second.  Both tasks execute against the same environment (they
carry the same proof in the scenarios of interest). -/
def runSchedule (cfg : Config) (env : Env402) (sched : List Bool)
    (sh : Shared) (t1 t2 : TaskState) : Shared × TaskState × TaskState :=
  match sched with
  | [] => (sh, t1, t2)
  | b :: rest =>
    if b then
      let s := stepTask cfg env sh t1
      runSchedule cfg env rest s.1 s.2 t2
    else
      let s := stepTask cfg env sh t2
      runSchedule cfg env rest s.1 t1 s.2

/-!
The token contract `X402Apes` (src/unnamed/part_000).  Only the state that
`mintAfterPayment` reads or writes is modelled; the payment-context, URI,
royalty and airdrop machinery does not interact with it.  `_safeMint`
appends a `(tokenId, owner)` record; its ERC-721 receiver hook is an
external collaborator and is not modelled.  Solidity 0.8 checked arithmetic:
the one guard using `+`, `totalMinted + quantity > maxSupply`, would revert
with an overflow panic instead of `MaxSupplyExceeded` if the sum reached
2^256; the embedding uses `Nat`, and the contract theorem assumes
`totalMinted + quantity < 2^256`, where the two agree.
-/

/-- The contract state `mintAfterPayment` touches: `owner` (Ownable),
`paused` (Pausable), `mintEnabled`, `maxSupply`, `totalMinted`, and the
minted `(tokenId, owner)` records. -/
structure ContractState where
  owner : Address
  paused : Bool
  mintEnabled : Bool
  maxSupply : Nat
  totalMinted : Nat
  tokens : List (Nat × Address)
deriving DecidableEq, Repr

/-- The revert reasons `mintAfterPayment` can produce: the `onlyOwner` and
`whenNotPaused` modifier reverts, then the four custom errors in source
order. -/
inductive MintRevert
  | notOwner
  | enforcedPause
  | mintDisabled
  | quantityZero
  | soldOut
  | maxSupplyExceeded
deriving DecidableEq, Repr

/-- `mintAfterPayment(payer, quantity)` (src/unnamed/part_000 lines 77-95):
modifiers `onlyOwner` and `whenNotPaused` run first (`nonReentrant` is a
no-op absent reentrancy), then the four guards in source order; on success
the loop `_safeMint`s token ids `totalMinted+1, …, totalMinted+quantity` to
`payer` and leaves `totalMinted` advanced by `quantity`. -/
def mintAfterPayment (s : ContractState) (caller payer : Address)
    (quantity : Nat) : Except MintRevert ContractState :=
  if caller ≠ s.owner then .error .notOwner
  else if s.paused then .error .enforcedPause
  else if !s.mintEnabled then .error .mintDisabled
  else if quantity = 0 then .error .quantityZero
  else if s.maxSupply ≤ s.totalMinted then .error .soldOut
  else if s.maxSupply < s.totalMinted + quantity then .error .maxSupplyExceeded
  else .ok { s with
    totalMinted := s.totalMinted + quantity,
    tokens := s.tokens ++
      (List.range quantity).map (fun i => (s.totalMinted + 1 + i, payer)) }

/-!
Concrete inputs used by witnesses and counterexamples.  Addresses: the asset
contract is 100, the treasury 200, the signer wallet 5, payers 7 and 8, a
stranger owner 9.  The configured price is the default 10000000 (10 USDC in
6-decimal units).
-/

/-- Sample configuration: asset 100, treasury 200, the default price, the
default resource identifier. -/
def cfgEx : Config := ⟨100, 200, 10000000, "mint:x402apes:1"⟩

/-- A qualifying transfer of exactly the price from payer 7. -/
def evFull : TransferEvent := ⟨7, 200, 10000000⟩

/-- A qualifying transfer of 6000000 from payer 7. -/
def evPart1 : TransferEvent := ⟨7, 200, 6000000⟩

/-- A qualifying transfer of 4000000 from payer 8. -/
def evPart2 : TransferEvent := ⟨8, 200, 4000000⟩

/-- A successful receipt with a single qualifying transfer of exactly the
price. -/
def receiptOk : Receipt := ⟨1, [⟨100, some evFull⟩]⟩

/-- A successful receipt with two qualifying transfers from two distinct
payers, 7 first, summing to exactly the price. -/
def receiptTwo : Receipt := ⟨1, [⟨100, some evPart1⟩, ⟨100, some evPart2⟩]⟩

/-- A successful receipt whose only qualifying transfer pays 5 units. -/
def receiptLow : Receipt := ⟨1, [⟨100, some ⟨7, 200, 5⟩⟩]⟩

/-- An all-success environment for src/api/402.js: configured, signer 5
matching the on-chain owner 5, `receiptOk` for the proof, mint and wait
succeeding with mint hash `0xMINT`. -/
def envOk : Env402 :=
  ⟨true, 5, .ok 1000, .ok ["0xAA"], .ok (some receiptOk), .ok 5, .ok (), .ok "0xMINT"⟩

/-- `envOk` but `getTransactionReceipt` returns null: the proof is unknown
to the ledger. -/
def envNotFound : Env402 :=
  ⟨true, 5, .ok 1000, .ok ["0xAA"], .ok none, .ok 5, .ok (), .ok "0xMINT"⟩

/-- `envOk` but the transaction reverted on-chain (status 0). -/
def envTxFailed : Env402 :=
  ⟨true, 5, .ok 1000, .ok ["0xAA"], .ok (some ⟨0, []⟩), .ok 5, .ok (), .ok "0xMINT"⟩

/-- `envOk` but the contract's recorded owner is 9, not the signer 5. -/
def envOwnerBad : Env402 :=
  ⟨true, 5, .ok 1000, .ok ["0xAA"], .ok (some receiptOk), .ok 9, .ok (), .ok "0xMINT"⟩

/-- An all-success environment for the part_002 variant. -/
def env2Ok : Env2 := ⟨true, .ok (some receiptOk), .ok (), .ok "0xMINT"⟩

/-- The part_002 environment in which the mint broadcast itself throws, as
it does when the signer is not the contract owner and `onlyOwner`
reverts. -/
def env2MintRevert : Env2 :=
  ⟨true, .ok (some receiptOk), .error "execution reverted", .ok "0xMINT"⟩

/-- A well-formed POST request: correct resource, direct transaction hash. -/
def reqTx : Request := ⟨some "mint:x402apes:1", some "0xAA", none⟩

/-- A POST request whose resource field does not match the configured
identifier. -/
def reqWrongRes : Request := ⟨some "not-the-resource", some "0xAA", none⟩

/-- A POST request with no transaction hash but a payer hint, exercising
payment discovery. -/
def reqNoTx : Request := ⟨some "mint:x402apes:1", none, some "0xPAYER"⟩

/-- A fresh task for proof `0xAA`, about to run the idempotency check. -/
def taskA : TaskState := ⟨"0xAA", .ready⟩

/-- The interleaving in which both tasks run their `processedTxs.has` check
before either completes: T1 checks, T2 checks, T1 runs to completion, T2
runs to completion. -/
def schedInterleaved : List Bool :=
  [true, false, true, true, true, true, false, false, false, false]

/-- The sequential schedule: T1 runs to completion, then T2 runs. -/
def schedSequential : List Bool :=
  [true, true, true, true, true, false, false, false, false, false]

/-- A contract state owned by 5, unpaused, minting enabled, 3 of 10 minted. -/
def stateEx : ContractState := ⟨5, false, true, 10, 3, []⟩

end X402

namespace X402

theorem verifyStep_eq_qualifies (cfg : Config) (acc : Option Address × Amount)
    (log : Log) :
    verifyStep cfg acc log =
      match qualifies cfg log with
      | none => acc
      | some ev =>
        ((if acc.1.isNone then some ev.fromAddr else acc.1), acc.2 + ev.value) := by
  unfold verifyStep qualifies
  by_cases h : log.address = cfg.usdcAddress
  · simp only [h, if_pos rfl, ne_eq, not_true_eq_false, if_false, if_true]
    cases log.parsed with
    | none => simp
    | some ev =>
      by_cases ht : ev.toAddr = cfg.treasuryAddress
      · simp [ht]
      · simp [ht]
  · simp [h]

theorem foldl_verifyStep (cfg : Config) (logs : List Log)
    (p : Option Address) (v : Amount) :
    logs.foldl (verifyStep cfg) (p, v) =
      (firstPayer p (qualifyingTransfers cfg logs),
       v + sumValues (qualifyingTransfers cfg logs)) := by
  induction logs generalizing p v with
  | nil =>
    simp [qualifyingTransfers, sumValues, firstPayer]
    cases p <;> simp
  | cons l ls ih =>
    rw [List.foldl_cons, verifyStep_eq_qualifies]
    cases hq : qualifies cfg l with
    | none =>
      rw [ih]
      simp [qualifyingTransfers, List.filterMap_cons, hq]
    | some ev =>
      rw [ih]
      simp only [qualifyingTransfers, List.filterMap_cons, hq]
      cases p with
      | some a => simp [firstPayer, sumValues, Nat.add_assoc]
      | none => simp [firstPayer, sumValues, Nat.add_assoc]

theorem verifyUsdcPayment_characterization (cfg : Config) (receipt : Receipt)
    (hst : receipt.status = 1) :
    verifyUsdcPayment cfg (some receipt) =
      match qualifyingTransfers cfg receipt.logs with
      | [] => .error .noQualifyingTransfer
      | q :: qs =>
        if sumValues (q :: qs) < cfg.price then
          .error (.insufficientAmount (sumValues (q :: qs)) cfg.price)
        else .ok q.fromAddr := by
  simp only [verifyUsdcPayment, foldl_verifyStep, hst, ne_eq, not_true_eq_false,
    if_false, Nat.zero_add]
  cases hq : qualifyingTransfers cfg receipt.logs with
  | nil => simp [firstPayer]
  | cons q qs => simp [firstPayer]

theorem qualifyingTransfers_filter_parseable (cfg : Config) (logs : List Log) :
    qualifyingTransfers cfg (logs.filter (fun l => l.parsed.isSome)) =
      qualifyingTransfers cfg logs := by
  induction logs with
  | nil => rfl
  | cons l ls ih =>
    cases hp : l.parsed with
    | none =>
      simp only [qualifyingTransfers, List.filter_cons, List.filterMap_cons, hp,
        Option.isSome_none, Bool.false_eq_true, if_false, qualifies,
        Option.none_bind, ite_self]
      exact ih
    | some ev =>
      simp only [qualifyingTransfers, List.filter_cons, List.filterMap_cons, hp,
        Option.isSome_some, if_true]
      cases hq : qualifies cfg l with
      | none => simpa [List.filterMap_cons, hq] using ih
      | some e => simpa [List.filterMap_cons, hq] using congrArg (e :: ·) ih

/-- C1: on a successful receipt, `verifyUsdcPayment` walks the logs in
on-ledger order, considers only decoded transfers emitted by the configured
asset whose destination is the treasury, sums their values, attributes the
payer to the source of the first such event, and returns that payer when the
sum reaches the price — even when later qualifying transfers come from other
sources. -/
theorem verify_attributes_first_payer (cfg : Config) (receipt : Receipt)
    (q : TransferEvent) (qs : List TransferEvent)
    (hst : receipt.status = 1)
    (hq : qualifyingTransfers cfg receipt.logs = q :: qs)
    (hsum : cfg.price ≤ sumValues (q :: qs)) :
    verifyUsdcPayment cfg (some receipt) = .ok q.fromAddr := by
  rw [verifyUsdcPayment_characterization cfg receipt hst, hq]
  simp [Nat.not_lt.mpr hsum]

/-- Witness for C1: a receipt with qualifying transfers from payers 7 and 8
(6 and 4 USDC) attributes the whole 10 USDC sum to payer 7, the first
source in log order. -/
theorem verify_attributes_first_payer_witness :
    verifyUsdcPayment cfgEx (some receiptTwo) = .ok 7 :=
  verify_attributes_first_payer cfgEx receiptTwo evPart1 [evPart2] rfl rfl
    (by decide)

/-- C6: on a successful receipt, `verifyUsdcPayment` fails with
`noQualifyingTransfer` exactly when no decoded transfer matches the asset
and the treasury, fails with `insufficientAmount` when the qualifying sum is
strictly below the configured price, and succeeds when the sum equals the
price exactly. -/
theorem verify_error_boundaries (cfg : Config) (receipt : Receipt)
    (hst : receipt.status = 1) :
    (qualifyingTransfers cfg receipt.logs = [] →
      verifyUsdcPayment cfg (some receipt) = .error .noQualifyingTransfer) ∧
    (∀ q qs, qualifyingTransfers cfg receipt.logs = q :: qs →
      sumValues (q :: qs) < cfg.price →
      verifyUsdcPayment cfg (some receipt) =
        .error (.insufficientAmount (sumValues (q :: qs)) cfg.price)) ∧
    (∀ q qs, qualifyingTransfers cfg receipt.logs = q :: qs →
      sumValues (q :: qs) = cfg.price →
      verifyUsdcPayment cfg (some receipt) = .ok q.fromAddr) := by
  refine ⟨fun hq => ?_, fun q qs hq hlt => ?_, fun q qs hq heq => ?_⟩
  · rw [verifyUsdcPayment_characterization cfg receipt hst, hq]
  · rw [verifyUsdcPayment_characterization cfg receipt hst, hq]
    simp [hlt]
  · rw [verifyUsdcPayment_characterization cfg receipt hst, hq]
    simp [heq]

/-- Witness for C6: a receipt paying 5 of the required 10000000 units fails
with `insufficientAmount 5 10000000`. -/
theorem verify_error_boundaries_witness :
    verifyUsdcPayment cfgEx (some receiptLow) =
      .error (.insufficientAmount 5 10000000) :=
  (verify_error_boundaries cfgEx receiptLow rfl).2.1 ⟨7, 200, 5⟩ [] rfl
    (by decide)

/-- C10: `verifyUsdcPayment` never fails because of a malformed log — its
result on any receipt equals its result after the undecodable logs are
dropped, so it depends only on the parseable events. -/
theorem verify_ignores_malformed (cfg : Config) (status : Nat)
    (logs : List Log) :
    verifyUsdcPayment cfg (some ⟨status, logs⟩) =
      verifyUsdcPayment cfg
        (some ⟨status, logs.filter (fun l => l.parsed.isSome)⟩) := by
  simp only [verifyUsdcPayment, foldl_verifyStep, qualifyingTransfers_filter_parseable]

/-- Witness for C10: a receipt carrying an undecodable log from the asset
contract verifies exactly as the same receipt without it. -/
theorem verify_ignores_malformed_witness :
    verifyUsdcPayment cfgEx (some ⟨1, [⟨100, none⟩, ⟨100, some evFull⟩]⟩) =
      verifyUsdcPayment cfgEx (some ⟨1, [⟨100, some evFull⟩]⟩) :=
  verify_ignores_malformed cfgEx 1 [⟨100, none⟩, ⟨100, some evFull⟩]

theorem afterTxHash402_subset (cfg : Config) (env : Env402)
    (processed : List String) (h : String) (cs : List Call) :
    processed ⊆ (afterTxHash402 cfg env processed h cs).processed := by
  unfold afterTxHash402
  repeat' split
  all_goals first
    | exact fun x hx => hx
    | exact fun x hx => List.mem_cons_of_mem _ hx

theorem afterTxHash402_cases (cfg : Config) (env : Env402)
    (processed : List String) (h : String) (cs : List Call) :
    (afterTxHash402 cfg env processed h cs).processed = processed ∨
    ((afterTxHash402 cfg env processed h cs).processed = h :: processed ∧
      ∃ p r, (afterTxHash402 cfg env processed h cs).body = RespBody.minted p r) := by
  unfold afterTxHash402
  repeat' split
  all_goals first
    | exact Or.inl rfl
    | exact Or.inr ⟨rfl, _, _, rfl⟩

theorem afterTxHash402_dispatch_owner (cfg : Config) (env : Env402)
    (processed : List String) (h : String) (cs : List Call)
    (hcs : Call.mintDispatch ∉ cs) :
    Call.mintDispatch ∈ (afterTxHash402 cfg env processed h cs).calls →
    Call.ownerCall ∈ (afterTxHash402 cfg env processed h cs).calls := by
  unfold afterTxHash402
  repeat' split
  all_goals intro hmd
  all_goals simp_all [List.mem_append]

theorem afterTxHash402_fresh (cfg : Config) (env : Env402)
    (processed : List String) (h : String) (cs : List Call)
    (hm : h ∉ processed) :
    Call.getReceipt ∈ (afterTxHash402 cfg env processed h cs).calls ∧
    ∀ x, (afterTxHash402 cfg env processed h cs).body ≠
        RespBody.alreadyProcessed x := by
  unfold afterTxHash402
  rw [if_neg hm]
  repeat' split
  all_goals exact ⟨by simp [List.mem_append], fun x hx => by simp at hx⟩

theorem mintDispatch_not_mem_findLatest (env : Env402) :
    Call.mintDispatch ∉ (findLatestUsdcPaymentTxHash env).2 := by
  unfold findLatestUsdcPaymentTxHash
  repeat' split
  all_goals simp

theorem handlerPost402_misconfigured (cfg : Config) (env : Env402)
    (processed : List String) (req : Request) (hc : env.configured = false) :
    handlerPost402 cfg env processed req =
      ⟨processed, 500,
       .errorMsg "Server misconfigured: missing OWNER_PRIVATE_KEY or NFT_CONTRACT_ADDRESS",
       []⟩ := by
  unfold handlerPost402
  simp [hc]

theorem handlerPost402_txHash_some (cfg : Config) (env : Env402)
    (processed : List String) (req : Request) (h : String)
    (hc : env.configured = true) (htx : req.txHash = some h) :
    handlerPost402 cfg env processed req = afterTxHash402 cfg env processed h [] := by
  unfold handlerPost402
  simp [hc, htx]

theorem handlerPost402_missing (cfg : Config) (env : Env402)
    (processed : List String) (req : Request)
    (hc : env.configured = true) (htx : req.txHash = none)
    (hp : req.payerHint = none) :
    handlerPost402 cfg env processed req =
      ⟨processed, 400, .errorMsg "Missing txHash and payer; cannot infer payment",
       []⟩ := by
  unfold handlerPost402
  simp [hc, htx, hp]

theorem handlerPost402_discovery (cfg : Config) (env : Env402)
    (processed : List String) (req : Request) (p : String)
    (hc : env.configured = true) (htx : req.txHash = none)
    (hp : req.payerHint = some p) :
    handlerPost402 cfg env processed req =
      (match findLatestUsdcPaymentTxHash env with
       | (.error e, cs) => ⟨processed, 500, .errorMsg e, cs⟩
       | (.ok h, cs) => afterTxHash402 cfg env processed h cs) := by
  unfold handlerPost402
  simp [hc, htx, hp]

theorem handlerPost402_cases (cfg : Config) (env : Env402)
    (processed : List String) (req : Request) :
    (handlerPost402 cfg env processed req).processed = processed ∨
    ∃ h, (handlerPost402 cfg env processed req).processed = h :: processed ∧
      ∃ p r, (handlerPost402 cfg env processed req).body = RespBody.minted p r := by
  cases hc : env.configured with
  | false =>
    rw [handlerPost402_misconfigured cfg env processed req hc]
    exact Or.inl rfl
  | true =>
    cases htx : req.txHash with
    | some h =>
      rw [handlerPost402_txHash_some cfg env processed req h hc htx]
      exact (afterTxHash402_cases cfg env processed h []).imp id fun hcse => ⟨h, hcse⟩
    | none =>
      cases hp : req.payerHint with
      | none =>
        rw [handlerPost402_missing cfg env processed req hc htx hp]
        exact Or.inl rfl
      | some p =>
        rw [handlerPost402_discovery cfg env processed req p hc htx hp]
        rcases hfl : findLatestUsdcPaymentTxHash env with ⟨r, cs⟩
        cases r with
        | error e => exact Or.inl rfl
        | ok h2 =>
          exact (afterTxHash402_cases cfg env processed h2 cs).imp id
            fun hcse => ⟨h2, hcse⟩

theorem handlerPost402_subset (cfg : Config) (env : Env402)
    (processed : List String) (req : Request) :
    processed ⊆ (handlerPost402 cfg env processed req).processed := by
  rcases handlerPost402_cases cfg env processed req with hc | ⟨h, hc, _⟩
  · rw [hc]
    exact fun x hx => hx
  · rw [hc]
    exact fun x hx => List.mem_cons_of_mem _ hx

theorem handlerPost402_dispatch_owner (cfg : Config) (env : Env402)
    (processed : List String) (req : Request) :
    Call.mintDispatch ∈ (handlerPost402 cfg env processed req).calls →
    Call.ownerCall ∈ (handlerPost402 cfg env processed req).calls := by
  cases hc : env.configured with
  | false =>
    rw [handlerPost402_misconfigured cfg env processed req hc]
    intro hmd
    simp at hmd
  | true =>
    cases htx : req.txHash with
    | some h =>
      rw [handlerPost402_txHash_some cfg env processed req h hc htx]
      exact afterTxHash402_dispatch_owner cfg env processed h [] (by simp)
    | none =>
      cases hp : req.payerHint with
      | none =>
        rw [handlerPost402_missing cfg env processed req hc htx hp]
        intro hmd
        simp at hmd
      | some p =>
        rw [handlerPost402_discovery cfg env processed req p hc htx hp]
        have hnd := mintDispatch_not_mem_findLatest env
        rcases hfl : findLatestUsdcPaymentTxHash env with ⟨r, cs⟩
        rw [hfl] at hnd
        cases r with
        | error e =>
          intro hmd
          exact absurd hmd hnd
        | ok h2 => exact afterTxHash402_dispatch_owner cfg env processed h2 cs hnd

theorem handlerPost402_verify_error (cfg : Config) (env : Env402)
    (processed : List String) (req : Request) (h : String)
    (rq : Option Receipt) (e : VerifyError)
    (hc : env.configured = true) (htx : req.txHash = some h)
    (hm : h ∉ processed) (hrec : env.receipt = .ok rq)
    (hver : verifyUsdcPayment cfg rq = .error e) :
    handlerPost402 cfg env processed req =
      ⟨processed, 500, .errorMsg (verifyMessage402 e), [.getReceipt]⟩ := by
  rw [handlerPost402_txHash_some cfg env processed req h hc htx]
  unfold afterTxHash402
  simp [hm, hrec, hver]

theorem handlerPost402_no_recent (cfg : Config) (env : Env402)
    (processed : List String) (req : Request) (p : String) (bn : Nat)
    (hc : env.configured = true) (htx : req.txHash = none)
    (hp : req.payerHint = some p) (hbn : env.blockNumber = .ok bn)
    (hlogs : env.paymentLogs = .ok []) :
    handlerPost402 cfg env processed req =
      ⟨processed, 500, .errorMsg "No recent USDC payment from payer to treasury",
       [.getBlockNumber, .getLogs]⟩ := by
  rw [handlerPost402_discovery cfg env processed req p hc htx hp]
  unfold findLatestUsdcPaymentTxHash
  simp [hbn, hlogs]

theorem handlerPost402_owner_mismatch (cfg : Config) (env : Env402)
    (processed : List String) (req : Request) (h : String)
    (rq : Option Receipt) (payer o : Address)
    (hc : env.configured = true) (htx : req.txHash = some h)
    (hm : h ∉ processed) (hrec : env.receipt = .ok rq)
    (hver : verifyUsdcPayment cfg rq = .ok payer)
    (hown : env.ownerResult = .ok o) (hne : o ≠ env.walletAddress) :
    handlerPost402 cfg env processed req =
      ⟨processed, 400, .signerNotOwner o env.walletAddress,
       [.getReceipt, .ownerCall]⟩ := by
  rw [handlerPost402_txHash_some cfg env processed req h hc htx]
  unfold afterTxHash402
  simp [hm, hrec, hver, hown, hne]

theorem handlerPost2_cases (cfg : Config) (env : Env2)
    (processed : List String) (req : Request) :
    (handlerPost2 cfg env processed req).processed = processed ∨
    ∃ h, (handlerPost2 cfg env processed req).processed = h :: processed ∧
      ∃ p r, (handlerPost2 cfg env processed req).body = RespBody.minted p r := by
  unfold handlerPost2
  repeat' split
  all_goals first
    | exact Or.inl rfl
    | exact Or.inr ⟨_, rfl, _, _, rfl⟩

theorem handlerPost2_subset (cfg : Config) (env : Env2)
    (processed : List String) (req : Request) :
    processed ⊆ (handlerPost2 cfg env processed req).processed := by
  rcases handlerPost2_cases cfg env processed req with hc | ⟨h, hc, _⟩
  · rw [hc]
    exact fun x hx => hx
  · rw [hc]
    exact fun x hx => List.mem_cons_of_mem _ hx

theorem handlerPost2_no_ownerCall (cfg : Config) (env : Env2)
    (processed : List String) (req : Request) :
    Call.ownerCall ∉ (handlerPost2 cfg env processed req).calls := by
  unfold handlerPost2
  repeat' split
  all_goals simp

theorem handlerPost2_already (cfg : Config) (env : Env2)
    (processed : List String) (req : Request) (h : String)
    (hc : env.configured = true) (hres : req.resource = some cfg.resource)
    (htx : req.txHash = some h) (hm : h ∈ processed) :
    handlerPost2 cfg env processed req =
      ⟨processed, 200, .alreadyProcessed h, []⟩ := by
  unfold handlerPost2
  simp [hc, hres, htx, hm]

theorem handlerPost2_invalid_resource (cfg : Config) (env : Env2)
    (processed : List String) (req : Request) (r h : String)
    (hc : env.configured = true) (hres : req.resource = some r)
    (hne : r ≠ cfg.resource) (htx : req.txHash = some h) :
    handlerPost2 cfg env processed req =
      ⟨processed, 400, .errorMsg "Invalid resource", []⟩ := by
  unfold handlerPost2
  simp [hc, hres, htx, hne]

theorem handlerPost2_verify_error (cfg : Config) (env : Env2)
    (processed : List String) (req : Request) (h : String)
    (rq : Option Receipt) (e : VerifyError)
    (hc : env.configured = true) (hres : req.resource = some cfg.resource)
    (htx : req.txHash = some h) (hm : h ∉ processed)
    (hrec : env.receipt = .ok rq)
    (hver : verifyUsdcPayment cfg rq = .error e) :
    handlerPost2 cfg env processed req =
      ⟨processed, 500, .errorMsg (verifyMessage2 e), [.getReceipt]⟩ := by
  unfold handlerPost2
  simp [hc, hres, htx, hm, hrec, hver]

theorem mem_runRequests402 (cfg : Config) (reqs : List (Env402 × Request))
    (processed : List String) (h : String) (hm : h ∈ processed) :
    h ∈ runRequests402 cfg reqs processed := by
  induction reqs generalizing processed with
  | nil => exact hm
  | cons er rest ih =>
    simp only [runRequests402, List.foldl_cons]
    exact ih _ (handlerPost402_subset cfg er.1 processed er.2 hm)

/-- C3: the processed-proof set grows monotonically in both handler
variants; once a txId is in the set, a POST carrying it is answered 200
`Already processed` with the set unchanged and zero remote calls (so no
verification, no dispatch, no mutation); and membership persists across any
sequence of subsequent requests for the life of the process. -/
theorem processed_set_monotone :
    (∀ (cfg : Config) (env : Env402) (processed : List String) (req : Request),
      processed ⊆ (handlerPost402 cfg env processed req).processed) ∧
    (∀ (cfg : Config) (env : Env2) (processed : List String) (req : Request),
      processed ⊆ (handlerPost2 cfg env processed req).processed) ∧
    (∀ (cfg : Config) (env : Env402) (processed : List String) (req : Request)
        (h : String),
      env.configured = true → req.txHash = some h → h ∈ processed →
      handlerPost402 cfg env processed req =
        ⟨processed, 200, .alreadyProcessed h, []⟩) ∧
    (∀ (cfg : Config) (env : Env2) (processed : List String) (req : Request)
        (h : String),
      env.configured = true → req.resource = some cfg.resource →
      req.txHash = some h → h ∈ processed →
      handlerPost2 cfg env processed req =
        ⟨processed, 200, .alreadyProcessed h, []⟩) ∧
    (∀ (cfg : Config) (reqs : List (Env402 × Request)) (processed : List String)
        (h : String),
      h ∈ processed → h ∈ runRequests402 cfg reqs processed) := by
  refine ⟨handlerPost402_subset, handlerPost2_subset, ?_, handlerPost2_already, ?_⟩
  · intro cfg env processed req h hc htx hm
    rw [handlerPost402_txHash_some cfg env processed req h hc htx]
    unfold afterTxHash402
    rw [if_pos hm]
  · intro cfg reqs processed h hm
    exact mem_runRequests402 cfg reqs processed h hm

/-- Witness for C3: with `0xAA` already processed, a POST carrying it is
answered 200 `Already processed` with the set unchanged and no remote
call. -/
theorem processed_set_monotone_witness :
    handlerPost402 cfgEx envOk ["0xAA"] reqTx =
      ⟨["0xAA"], 200, .alreadyProcessed "0xAA", []⟩ :=
  processed_set_monotone.2.2.1 cfgEx envOk ["0xAA"] reqTx "0xAA" rfl rfl
    (by simp)

/-- C9: in both handler variants the processed set is written only by a
request that answers with a confirmed mint body; every other outcome
(verification failure, authority mismatch, mint or confirmation-wait throw)
leaves the set unchanged; and a retry of an unprocessed hash re-runs
verification (it fetches the receipt) and is never answered
`Already processed`. -/
theorem processed_marked_only_after_confirm :
    (∀ (cfg : Config) (env : Env402) (processed : List String) (req : Request),
      (∀ p r, (handlerPost402 cfg env processed req).body ≠ RespBody.minted p r) →
      (handlerPost402 cfg env processed req).processed = processed) ∧
    (∀ (cfg : Config) (env : Env2) (processed : List String) (req : Request),
      (∀ p r, (handlerPost2 cfg env processed req).body ≠ RespBody.minted p r) →
      (handlerPost2 cfg env processed req).processed = processed) ∧
    (∀ (cfg : Config) (env : Env402) (processed : List String) (req : Request)
        (h : String),
      env.configured = true → req.txHash = some h → h ∉ processed →
      Call.getReceipt ∈ (handlerPost402 cfg env processed req).calls ∧
      ∀ x, (handlerPost402 cfg env processed req).body ≠
          RespBody.alreadyProcessed x) := by
  refine ⟨?_, ?_, ?_⟩
  · intro cfg env processed req hnb
    rcases handlerPost402_cases cfg env processed req with hc | ⟨h, _, p, r, hb⟩
    · exact hc
    · exact absurd hb (hnb p r)
  · intro cfg env processed req hnb
    rcases handlerPost2_cases cfg env processed req with hc | ⟨h, _, p, r, hb⟩
    · exact hc
    · exact absurd hb (hnb p r)
  · intro cfg env processed req h hc htx hm
    rw [handlerPost402_txHash_some cfg env processed req h hc htx]
    exact afterTxHash402_fresh cfg env processed h [] hm

/-- Witness for C9: a request whose proof is unknown to the ledger fetches
the receipt (verification re-runs) and is not treated as already
processed. -/
theorem processed_marked_only_after_confirm_witness :
    Call.getReceipt ∈ (handlerPost402 cfgEx envNotFound [] reqTx).calls ∧
    ∀ x, (handlerPost402 cfgEx envNotFound [] reqTx).body ≠
        RespBody.alreadyProcessed x :=
  processed_marked_only_after_confirm.2.2 cfgEx envNotFound [] reqTx "0xAA"
    rfl rfl (by simp)

/-- C4 counterexample: src/api/402.js accepts a POST whose `resource` field
differs from the configured identifier, makes Chain Reader calls, and mints
— it never reads the field, refuting the claim that every POST is validated
against the configured resource before any chain access. -/
theorem resource_check_counterexample :
    reqWrongRes.resource = some "not-the-resource" ∧
    cfgEx.resource = "mint:x402apes:1" ∧
    handlerPost402 cfgEx envOk [] reqWrongRes =
      ⟨["0xAA"], 200, .minted 7 "0xMINT",
       [.getReceipt, .ownerCall, .mintDispatch, .txWait]⟩ :=
  ⟨rfl, rfl, rfl⟩

/-- C4 amended: only the part_002 variant validates the resource — there a
present but mismatched `resource` is rejected 400 `Invalid resource` with
zero remote calls — while src/api/402.js ignores the body's resource field
entirely (its response is independent of it). -/
theorem resource_checked_only_in_variant :
    (∀ (cfg : Config) (env : Env2) (processed : List String) (req : Request)
        (r h : String),
      env.configured = true → req.resource = some r → r ≠ cfg.resource →
      req.txHash = some h →
      handlerPost2 cfg env processed req =
        ⟨processed, 400, .errorMsg "Invalid resource", []⟩) ∧
    (∀ (cfg : Config) (env : Env402) (processed : List String)
        (r1 r2 tx ph : Option String),
      handlerPost402 cfg env processed ⟨r1, tx, ph⟩ =
        handlerPost402 cfg env processed ⟨r2, tx, ph⟩) := by
  refine ⟨handlerPost2_invalid_resource, ?_⟩
  intro cfg env processed r1 r2 tx ph
  rfl

/-- Witness for C4 (amended): the part_002 variant rejects the mismatched
resource with 400 and an empty call trace. -/
theorem resource_checked_only_in_variant_witness :
    handlerPost2 cfgEx env2Ok [] reqWrongRes =
      ⟨[], 400, .errorMsg "Invalid resource", []⟩ :=
  resource_checked_only_in_variant.1 cfgEx env2Ok [] reqWrongRes
    "not-the-resource" "0xAA" rfl rfl (by decide) rfl

/-- C5 counterexample: the part_002 variant issues the mint broadcast with
no owner read at all — its call trace contains `mintDispatch` and no
`ownerCall` — and when the signer is not the contract owner the dispatch is
still made and the revert surfaces as a 500, not an AuthorityMismatch-style
400 without dispatch. -/
theorem authority_check_counterexample :
    handlerPost2 cfgEx env2MintRevert [] reqTx =
      ⟨[], 500, .errorMsg "execution reverted", [.getReceipt, .mintDispatch]⟩ :=
  rfl

/-- C5 amended: only src/api/402.js pre-checks authority — every request of
its that dispatches a mint has read the contract owner in the same request
(fresh, per request), and on a mismatch it answers 400 with the expected
and actual authority, performs no dispatch and leaves the set unchanged —
while the part_002 variant never reads the contract owner at all. -/
theorem authority_precheck_only_in_402 :
    (∀ (cfg : Config) (env : Env402) (processed : List String) (req : Request),
      Call.mintDispatch ∈ (handlerPost402 cfg env processed req).calls →
      Call.ownerCall ∈ (handlerPost402 cfg env processed req).calls) ∧
    (∀ (cfg : Config) (env : Env402) (processed : List String) (req : Request)
        (h : String) (rq : Option Receipt) (payer o : Address),
      env.configured = true → req.txHash = some h → h ∉ processed →
      env.receipt = .ok rq → verifyUsdcPayment cfg rq = .ok payer →
      env.ownerResult = .ok o → o ≠ env.walletAddress →
      handlerPost402 cfg env processed req =
        ⟨processed, 400, .signerNotOwner o env.walletAddress,
         [.getReceipt, .ownerCall]⟩) ∧
    (∀ (cfg : Config) (env : Env2) (processed : List String) (req : Request),
      Call.ownerCall ∉ (handlerPost2 cfg env processed req).calls) :=
  ⟨handlerPost402_dispatch_owner, handlerPost402_owner_mismatch,
   handlerPost2_no_ownerCall⟩

/-- Witness for C5 (amended): with the contract owner 9 and signer 5,
src/api/402.js answers 400 with both authorities and performs no
dispatch. -/
theorem authority_precheck_only_in_402_witness :
    handlerPost402 cfgEx envOwnerBad [] reqTx =
      ⟨[], 400, .signerNotOwner 9 5, [.getReceipt, .ownerCall]⟩ :=
  authority_precheck_only_in_402.2.1 cfgEx envOwnerBad [] reqTx "0xAA"
    (some receiptOk) 7 9 rfl rfl (by simp) rfl rfl rfl (by decide)

/-- C7 counterexample: a `TransactionNotFound` payment-validation fault is
answered with HTTP 500, not a 400/404-class status — the catch-all maps
every thrown verification error to 500. -/
theorem validation_fault_status_counterexample :
    handlerPost402 cfgEx envNotFound [] reqTx =
      ⟨[], 500, .errorMsg "Transaction not found", [.getReceipt]⟩ :=
  rfl

/-- C7 amended: payment-validation faults (`TransactionNotFound`,
`TransactionFailed`, `NoQualifyingTransfer`, `InsufficientAmount` via a
`verifyUsdcPayment` error, and `NoRecentPayment` from discovery) are all
answered HTTP 500 with the fault message in the error body, in both handler
variants. -/
theorem validation_faults_return_500 :
    (∀ (cfg : Config) (env : Env402) (processed : List String) (req : Request)
        (h : String) (rq : Option Receipt) (e : VerifyError),
      env.configured = true → req.txHash = some h → h ∉ processed →
      env.receipt = .ok rq → verifyUsdcPayment cfg rq = .error e →
      handlerPost402 cfg env processed req =
        ⟨processed, 500, .errorMsg (verifyMessage402 e), [.getReceipt]⟩) ∧
    (∀ (cfg : Config) (env : Env402) (processed : List String) (req : Request)
        (p : String) (bn : Nat),
      env.configured = true → req.txHash = none → req.payerHint = some p →
      env.blockNumber = .ok bn → env.paymentLogs = .ok [] →
      handlerPost402 cfg env processed req =
        ⟨processed, 500,
         .errorMsg "No recent USDC payment from payer to treasury",
         [.getBlockNumber, .getLogs]⟩) ∧
    (∀ (cfg : Config) (env : Env2) (processed : List String) (req : Request)
        (h : String) (rq : Option Receipt) (e : VerifyError),
      env.configured = true → req.resource = some cfg.resource →
      req.txHash = some h → h ∉ processed →
      env.receipt = .ok rq → verifyUsdcPayment cfg rq = .error e →
      handlerPost2 cfg env processed req =
        ⟨processed, 500, .errorMsg (verifyMessage2 e), [.getReceipt]⟩) :=
  ⟨handlerPost402_verify_error, handlerPost402_no_recent,
   handlerPost2_verify_error⟩

/-- Witness for C7 (amended): a reverted payment transaction is answered
500 with the `Transaction failed` message. -/
theorem validation_faults_return_500_witness :
    handlerPost402 cfgEx envTxFailed [] reqTx =
      ⟨[], 500, .errorMsg "Transaction failed", [.getReceipt]⟩ :=
  validation_faults_return_500.1 cfgEx envTxFailed [] reqTx "0xAA"
    (some ⟨0, []⟩) .transactionFailed rfl rfl (by simp) rfl rfl

/-- C2: two concurrent POSTs carrying the same proof `0xAA` both pass the
`processedTxs.has` check before either marks it — the check and the mark
are separated by `await` suspension points with no lock — so both dispatch
a mint: the interleaved schedule produces 2 dispatches and inserts the hash
twice, while the sequential schedule produces 1.  This refutes the claim
that at most one concurrent request reaches the mint call. -/
theorem concurrent_requests_double_dispatch :
    (runSchedule cfgEx envOk schedInterleaved ⟨[], 0⟩ taskA taskA).1.dispatches
        = 2 ∧
    (runSchedule cfgEx envOk schedInterleaved ⟨[], 0⟩ taskA taskA).1.processed
        = ["0xAA", "0xAA"] ∧
    (runSchedule cfgEx envOk schedSequential ⟨[], 0⟩ taskA taskA).1.dispatches
        = 1 :=
  ⟨rfl, rfl, rfl⟩

/-- C8: `mintAfterPayment`, called by the owner while not paused, reverts
`MintDisabled` when minting is disabled, `QuantityZero` on zero quantity,
`SoldOut` when `totalMinted` is already at `maxSupply`, `MaxSupplyExceeded`
when `totalMinted + quantity` would exceed `maxSupply`; otherwise it mints
the sequential token ids `totalMinted+1, …, totalMinted+quantity` to the
payer, advances `totalMinted` by exactly `quantity`, and preserves
`totalMinted ≤ maxSupply`.  The bound hypothesis marks the domain on which
`Nat` addition agrees with the contract's checked `uint256` addition. -/
theorem mintAfterPayment_spec (s : ContractState) (payer : Address)
    (quantity : Nat) (hpause : s.paused = false)
    (_hbound : s.totalMinted + quantity < 2 ^ 256) :
    (s.mintEnabled = false →
      mintAfterPayment s s.owner payer quantity = .error .mintDisabled) ∧
    (s.mintEnabled = true → quantity = 0 →
      mintAfterPayment s s.owner payer quantity = .error .quantityZero) ∧
    (s.mintEnabled = true → quantity ≠ 0 → s.maxSupply ≤ s.totalMinted →
      mintAfterPayment s s.owner payer quantity = .error .soldOut) ∧
    (s.mintEnabled = true → quantity ≠ 0 → s.totalMinted < s.maxSupply →
      s.maxSupply < s.totalMinted + quantity →
      mintAfterPayment s s.owner payer quantity = .error .maxSupplyExceeded) ∧
    (s.mintEnabled = true → quantity ≠ 0 →
      s.totalMinted + quantity ≤ s.maxSupply →
      ∃ s2, mintAfterPayment s s.owner payer quantity = .ok s2 ∧
        s2.totalMinted = s.totalMinted + quantity ∧
        s2.tokens = s.tokens ++
          (List.range quantity).map (fun i => (s.totalMinted + 1 + i, payer)) ∧
        s2.totalMinted ≤ s.maxSupply) := by
  refine ⟨?_, ?_, ?_, ?_, ?_⟩
  · intro hme
    simp [mintAfterPayment, hpause, hme]
  · intro hme hq
    simp [mintAfterPayment, hpause, hme, hq]
  · intro hme hqne hsold
    simp [mintAfterPayment, hpause, hme, hqne, hsold]
  · intro hme hqne hlt hexc
    simp [mintAfterPayment, hpause, hme, hqne, Nat.not_le.mpr hlt, hexc]
  · intro hme hqne hle
    have hlt : s.totalMinted < s.maxSupply :=
      Nat.lt_of_lt_of_le
        (Nat.lt_add_of_pos_right (Nat.pos_of_ne_zero hqne)) hle
    refine ⟨{ s with
        totalMinted := s.totalMinted + quantity,
        tokens := s.tokens ++
          (List.range quantity).map (fun i => (s.totalMinted + 1 + i, payer)) },
      ?_, rfl, rfl, hle⟩
    simp [mintAfterPayment, hpause, hme, hqne, Nat.not_le.mpr hlt,
      Nat.not_lt.mpr hle]

/-- Witness for C8: from 3 of 10 minted, minting quantity 2 to payer 7
succeeds with token ids 4 and 5 and `totalMinted = 5 ≤ 10`. -/
theorem mintAfterPayment_spec_witness :
    ∃ s2, mintAfterPayment stateEx 5 7 2 = .ok s2 ∧
      s2.totalMinted = 3 + 2 ∧
      s2.tokens = stateEx.tokens ++
        (List.range 2).map (fun i => (3 + 1 + i, 7)) ∧
      s2.totalMinted ≤ 10 :=
  (mintAfterPayment_spec stateEx 7 2 rfl (by decide)).2.2.2.2 rfl (by decide)
    (by decide)

end X402
